import Mathlib

/-!
Formal model of the curriculum exporter (scripts/export-curriculum.py).

The script reads five tables from a relational store, runs two read
queries (activities joined with their day and learning block; homework
assignments grouped per day with their tasks concatenated), builds an
in-memory homework lookup keyed by (module, day number), assembles one
searchable text chunk per qualifying activity, and serializes the chunk
sequence to JSON.

Rows of the source tables are modelled as structures whose nullable
columns are `Option`-valued; the two SQL queries are modelled as list
transformations with SQLite LEFT JOIN / WHERE / GROUP BY / GROUP_CONCAT /
ORDER BY semantics made explicit; Python-level behaviour (f-string
rendering of None, truthiness tests on nullable strings, dict insertion
order, str.join) is modelled by small helper functions.
-/

open scoped Lex

/-- A row of the `days` table: module name (nullable), day number, theme (nullable). -/
structure Day where
  id : Nat
  module : Option String
  day_number : Int
  theme : Option String
deriving DecidableEq

/-- A row of the `learning_blocks` table. -/
structure LearningBlock where
  id : Nat
  focus : Option String
deriving DecidableEq

/-- A row of the `activities` table; optional columns are nullable in the store. -/
structure Activity where
  id : Nat
  day_id : Option Nat
  block_id : Option Nat
  name : Option String
  sequence_order : Int
  purpose : Option String
  duration : Option String
  facilitator_script : Option String
  transition_script : Option String
deriving DecidableEq

/-- A row of the `homework_assignments` table; the title is nullable. -/
structure HomeworkAssignment where
  id : Nat
  day_id : Option Nat
  title : Option String
deriving DecidableEq

/-- A row of the `homework_tasks` table. -/
structure HomeworkTask where
  assignment_id : Option Nat
  task : Option String
deriving DecidableEq

/-- The source database: the five tables read by the exporter, each a list of rows
in stored order. -/
structure DB where
  days : List Day
  learning_blocks : List LearningBlock
  activities : List Activity
  homework_assignments : List HomeworkAssignment
  homework_tasks : List HomeworkTask
deriving DecidableEq

/-- Python str() applied to a nullable string: None renders as the text None. -/
def pyStr : Option String → String
  | none => "None"
  | some s => s

/-- Python str() applied to a nullable integer: None renders as the text None. -/
def pyStrInt : Option Int → String
  | none => "None"
  | some n => toString n

/-- Python truthiness of a nullable string: None and the empty string are falsy. -/
def pyTruthy : Option String → Bool
  | none => false
  | some s => !(s == "")

/-- Python str.join with the given separator. -/
def pyJoin (sep : String) : List String → String
  | [] => ""
  | [s] => s
  | s :: t :: rest => s ++ sep ++ pyJoin sep (t :: rest)

/-- SQLite LEFT JOIN of one activity against `days` on a.day_id = d.id:
every matching day yields a row; no match yields a single all-NULL day. -/
def leftJoinDay (db : DB) (a : Activity) : List (Option Day) :=
  let hits := db.days.filter (fun d => a.day_id == some d.id)
  if hits.isEmpty then [none] else hits.map some

/-- SQLite LEFT JOIN of one activity against `learning_blocks` on a.block_id = lb.id. -/
def leftJoinBlock (db : DB) (a : Activity) : List (Option LearningBlock) :=
  let hits := db.learning_blocks.filter (fun b => a.block_id == some b.id)
  if hits.isEmpty then [none] else hits.map some

/-- One result row of the activities query: the SELECTed columns, nullable ones
as Options (columns coming from a failed LEFT JOIN are NULL). -/
structure CtxRow where
  activity_id : Nat
  module : Option String
  day_number : Option Int
  day_theme : Option String
  activity_name : Option String
  sequence_order : Int
  purpose : Option String
  duration : Option String
  facilitator_script : Option String
  transition_script : Option String
  learning_block_focus : Option String
deriving DecidableEq

/-- Projection of one joined (activity, day, learning block) triple onto the
SELECTed columns of the activities query. -/
def ctxRowOf (a : Activity) (d : Option Day) (lb : Option LearningBlock) : CtxRow where
  activity_id := a.id
  module := d.bind Day.module
  day_number := d.map Day.day_number
  day_theme := d.bind Day.theme
  activity_name := a.name
  sequence_order := a.sequence_order
  purpose := a.purpose
  duration := a.duration
  facilitator_script := a.facilitator_script
  transition_script := a.transition_script
  learning_block_focus := lb.bind LearningBlock.focus

/-- All rows of the activities query before the WHERE clause:
activities LEFT JOIN days LEFT JOIN learning_blocks. -/
def contextRowsAll (db : DB) : List CtxRow :=
  db.activities.flatMap fun a =>
    (leftJoinDay db a).flatMap fun d =>
      (leftJoinBlock db a).map fun lb => ctxRowOf a d lb

/-- The activities query after WHERE d.module IS NOT NULL. -/
def contextRows (db : DB) : List CtxRow :=
  (contextRowsAll db).filter fun r => r.module.isSome

/-- Sort key of ORDER BY d.module, d.day_number, a.sequence_order:
lexicographic on (module, day number, sequence order), NULL first as in SQLite. -/
abbrev SortKey := Lex (WithBot String × Lex ((WithBot Int) × Int))

/-- View a nullable column as a WithBot value (NULL sorts below everything). -/
def toWB {α : Type} : Option α → WithBot α
  | none => ⊥
  | some a => (a : WithBot α)

/-- The sort key of one activities-query row. -/
def rowKey (r : CtxRow) : SortKey :=
  toLex (toWB r.module, toLex (toWB r.day_number, r.sequence_order))

/-- The ordering relation realised by the ORDER BY clause of the activities query. -/
def rowOrd (r1 r2 : CtxRow) : Prop := rowKey r1 ≤ rowKey r2

instance : DecidableRel rowOrd :=
  fun r1 r2 => inferInstanceAs (Decidable (rowKey r1 ≤ rowKey r2))

instance : IsTotal CtxRow rowOrd := ⟨fun a b => le_total (rowKey a) (rowKey b)⟩

instance : IsTrans CtxRow rowOrd := ⟨fun _ _ _ h1 h2 => le_trans h1 h2⟩

/-- The full activities query: join, WHERE filter, ORDER BY. -/
def activitiesQuery (db : DB) : List CtxRow :=
  List.insertionSort rowOrd (contextRows db)

/-- One row of the homework join before grouping: a day with one of its
assignments (or NULL) and one of that assignment's tasks (or NULL). -/
abbrev HwJoinRow := Day × Option HomeworkAssignment × Option HomeworkTask

/-- The task rows matching one assignment in the LEFT JOIN on
ht.assignment_id = ha.id. -/
def assignmentTaskRows (db : DB) (ha : HomeworkAssignment) : List HomeworkTask :=
  db.homework_tasks.filter fun ht => ht.assignment_id == some ha.id

/-- The join rows contributed by one (day, assignment) pair: one row per
matching task, or a single row with a NULL task when no task matches. -/
def assignmentJoinRows (db : DB) (d : Day) (ha : HomeworkAssignment) : List HwJoinRow :=
  let hts := assignmentTaskRows db ha
  if hts.isEmpty then [(d, some ha, none)]
  else hts.map fun ht => (d, some ha, some ht)

/-- The assignment rows matching one day in the LEFT JOIN on ha.day_id = d.id. -/
def dayAssignments (db : DB) (d : Day) : List HomeworkAssignment :=
  db.homework_assignments.filter fun ha => ha.day_id == some d.id

/-- The join rows contributed by one day: its assignments joined with their
tasks, or a single row with NULL assignment and task when no assignment matches. -/
def dayHwRows (db : DB) (d : Day) : List HwJoinRow :=
  let has := dayAssignments db d
  if has.isEmpty then [(d, none, none)]
  else has.flatMap (assignmentJoinRows db d)

/-- days LEFT JOIN homework_assignments ON ha.day_id = d.id
LEFT JOIN homework_tasks ON ht.assignment_id = ha.id. -/
def hwJoinRows (db : DB) : List HwJoinRow :=
  db.days.flatMap (dayHwRows db)

/-- The homework join after WHERE d.module IS NOT NULL. -/
def hwJoinFiltered (db : DB) : List HwJoinRow :=
  (hwJoinRows db).filter fun r => r.1.module.isSome

/-- The GROUP BY key of the homework query: (d.id, d.module, d.day_number, ha.title). -/
abbrev GKey := Nat × Option String × Int × Option String

/-- Group key of one homework join row. -/
def hwKey (r : HwJoinRow) : GKey :=
  (r.1.id, r.1.module, r.1.day_number, r.2.1.bind HomeworkAssignment.title)

/-- The distinct group keys of a row list, in order of first occurrence. -/
def groupKeys (rows : List HwJoinRow) : List GKey :=
  rows.foldl (fun ks r => if hwKey r ∈ ks then ks else ks ++ [hwKey r]) []

/-- SQLite GROUP_CONCAT with an explicit separator: NULL values are skipped,
and the aggregate is NULL when no non-NULL value exists in the group. -/
def groupConcat (sep : String) (xs : List (Option String)) : Option String :=
  match xs.filterMap id with
  | [] => none
  | y :: ys => some (String.intercalate sep (y :: ys))

/-- One result row of the homework query (SELECTed columns). -/
structure HwRow where
  day_id : Nat
  module : Option String
  day_number : Option Int
  homework_title : Option String
  homework_tasks : Option String
deriving DecidableEq

/-- The homework-query result row of one group: the key columns plus the
GROUP_CONCAT of the task column over the group's rows. -/
def hwRowOfKey (rows : List HwJoinRow) (k : GKey) : HwRow where
  day_id := k.1
  module := k.2.1
  day_number := some k.2.2.1
  homework_title := k.2.2.2
  homework_tasks :=
    groupConcat " | " ((rows.filter fun r => hwKey r == k).map fun r => r.2.2.bind HomeworkTask.task)

/-- The full homework query: join, WHERE filter, GROUP BY with GROUP_CONCAT. -/
def homeworkRows (db : DB) : List HwRow :=
  (groupKeys (hwJoinFiltered db)).map (hwRowOfKey (hwJoinFiltered db))

/-- One entry of the homework lookup: a dict with keys title and tasks. -/
structure HwItem where
  title : String
  tasks : String
deriving DecidableEq

/-- Key of the homework lookup: the (module, day number) pair. -/
abbrev HwKey := Option String × Option Int

/-- The homework lookup, a Python dict modelled as an insertion-ordered
association list with unique keys. -/
abbrev HwMap := List (HwKey × List HwItem)

/-- Python dict lookup. -/
def lookupHw (m : HwMap) (k : HwKey) : Option (List HwItem) :=
  (m.find? fun e => e.1 == k).map fun e => e.2

/-- Python dict assignment to an existing key. -/
def setHw (m : HwMap) (k : HwKey) (v : List HwItem) : HwMap :=
  m.map fun e => if e.1 == k then (e.1, v) else e

/-- Python: if key not in homework_by_day, homework_by_day[key] = [];
the key is inserted at the end with an empty entry list when absent. -/
def ensureKey (m : HwMap) (k : HwKey) : HwMap :=
  if (lookupHw m k).isSome then m else m ++ [(k, [])]

/-- Processing of one homework result row: ensure the (module, day number) key
is present (initialised to an empty list), then append a title/tasks entry
when the title is truthy, with NULL tasks replaced by the empty string. -/
def addHwRow (m : HwMap) (row : HwRow) : HwMap :=
  match row.homework_title with
  | some t =>
      if t == "" then ensureKey m (row.module, row.day_number)
      else
        setHw (ensureKey m (row.module, row.day_number)) (row.module, row.day_number)
          ((lookupHw (ensureKey m (row.module, row.day_number)) (row.module, row.day_number)).getD []
            ++ [⟨t, row.homework_tasks.getD ""⟩])
  | none => ensureKey m (row.module, row.day_number)

/-- The homework lookup built from the homework query results. -/
def homework_by_day (db : DB) : HwMap :=
  (homeworkRows db).foldl addHwRow []

/-- The dict key of one homework result row: its (module, day number) pair. -/
def rkeyOf (row : HwRow) : HwKey := (row.module, row.day_number)

/-- Whether a homework result row carries a truthy title. -/
def truthyTitle (row : HwRow) : Bool := pyTruthy row.homework_title

/-- The dict entry built from one title-bearing homework result row. -/
def mkItem (row : HwRow) : HwItem :=
  ⟨row.homework_title.getD "", row.homework_tasks.getD ""⟩

/-- The entries contributed to one dict key by a homework result row list. -/
def newItems (rows : List HwRow) (k : HwKey) : List HwItem :=
  (rows.filter fun row => rkeyOf row == k && truthyTitle row).map mkItem

/-- One output chunk: the dict serialized per activity. -/
structure Chunk where
  id : String
  content_type : String
  module : Option String
  day : Option Int
  day_theme : Option String
  session_number : Int
  activity_name : Option String
  purpose : Option String
  duration : Option String
  searchable_content : String
  facilitator_script : Option String
  transition_script : Option String
deriving DecidableEq

/-- The homework text: title-bearing entries rendered as title: tasks and
joined with a semicolon separator. -/
def hwTextOf (items : List HwItem) : String :=
  String.intercalate "; " ((items.filter fun hw => !(hw.title == "")).map fun hw => hw.title ++ ": " ++ hw.tasks)

/-- The content_parts list assembled for one activities-query row: three
unconditional header lines, five lines conditional on truthiness of their
field, and a final homework line when the (module, day) key is present in the
lookup, the sequence order is at least 3, and the entry list is non-empty. -/
def contentParts (hm : HwMap) (r : CtxRow) : List String :=
  (["Module: " ++ pyStr r.module,
    "Day " ++ pyStrInt r.day_number ++ ": " ++ pyStr r.day_theme,
    "Session " ++ toString r.sequence_order ++ ": " ++ pyStr r.activity_name]
   ++ (if pyTruthy r.learning_block_focus then
        ["Learning Block Focus: " ++ r.learning_block_focus.getD ""] else [])
   ++ (if pyTruthy r.purpose then ["Purpose: " ++ r.purpose.getD ""] else [])
   ++ (if pyTruthy r.duration then ["Duration: " ++ r.duration.getD ""] else [])
   ++ (if pyTruthy r.facilitator_script then
        ["Facilitator Script: " ++ r.facilitator_script.getD ""] else [])
   ++ (if pyTruthy r.transition_script then
        ["Transition: " ++ r.transition_script.getD ""] else []))
  ++ (match lookupHw hm (r.module, r.day_number) with
      | some items =>
          if decide (3 ≤ r.sequence_order) && !items.isEmpty then
            ["Homework: " ++ hwTextOf items]
          else []
      | none => [])

/-- The header lines and the conditional field lines of one row: every content
part except the homework line. -/
def headerAndOptionalParts (r : CtxRow) : List String :=
  ["Module: " ++ pyStr r.module,
   "Day " ++ pyStrInt r.day_number ++ ": " ++ pyStr r.day_theme,
   "Session " ++ toString r.sequence_order ++ ": " ++ pyStr r.activity_name]
  ++ (if pyTruthy r.learning_block_focus then
       ["Learning Block Focus: " ++ r.learning_block_focus.getD ""] else [])
  ++ (if pyTruthy r.purpose then ["Purpose: " ++ r.purpose.getD ""] else [])
  ++ (if pyTruthy r.duration then ["Duration: " ++ r.duration.getD ""] else [])
  ++ (if pyTruthy r.facilitator_script then
       ["Facilitator Script: " ++ r.facilitator_script.getD ""] else [])
  ++ (if pyTruthy r.transition_script then
       ["Transition: " ++ r.transition_script.getD ""] else [])

/-- The homework line of one row, when the lookup and threshold conditions hold. -/
def homeworkTail (hm : HwMap) (r : CtxRow) : List String :=
  match lookupHw hm (r.module, r.day_number) with
  | some items =>
      if decide (3 ≤ r.sequence_order) && !items.isEmpty then
        ["Homework: " ++ hwTextOf items]
      else []
  | none => []

/-- The chunk built for one activities-query row. -/
def chunkOf (hm : HwMap) (r : CtxRow) : Chunk where
  id := "curr-" ++ toString r.activity_id
  content_type := "curriculum_activity"
  module := r.module
  day := r.day_number
  day_theme := r.day_theme
  session_number := r.sequence_order
  activity_name := r.activity_name
  purpose := r.purpose
  duration := r.duration
  searchable_content := pyJoin "\n" (contentParts hm r)
  facilitator_script := r.facilitator_script
  transition_script := r.transition_script

/-- The full chunk sequence produced by the exporter. -/
def chunks (db : DB) : List Chunk :=
  (activitiesQuery db).map (chunkOf (homework_by_day db))

/-- Hexadecimal digit, lower case. -/
def hexDigit (n : Nat) : Char :=
  if n < 10 then Char.ofNat (48 + n) else Char.ofNat (87 + n)

/-- Four-digit hexadecimal rendering, as in a JSON unicode escape. -/
def hex4 (n : Nat) : String :=
  String.mk [hexDigit (n / 4096 % 16), hexDigit (n / 256 % 16), hexDigit (n / 16 % 16), hexDigit (n % 16)]

/-- JSON escaping of one character with ensure_ascii disabled: only the quote,
backslash and control characters are escaped, everything else is verbatim. -/
def jsonEscapeChar (c : Char) : String :=
  if c == Char.ofNat 34 then "\\\""
  else if c == Char.ofNat 92 then "\\\\"
  else if c == Char.ofNat 10 then "\\n"
  else if c == Char.ofNat 9 then "\\t"
  else if c == Char.ofNat 13 then "\\r"
  else if c == Char.ofNat 8 then "\\b"
  else if c == Char.ofNat 12 then "\\f"
  else if c.toNat < 32 then "\\u" ++ hex4 c.toNat
  else String.singleton c

/-- JSON rendering of a string. -/
def jsonString (s : String) : String :=
  "\"" ++ String.join (s.data.map jsonEscapeChar) ++ "\""

/-- JSON rendering of a nullable string. -/
def jsonOfOptStr : Option String → String
  | none => "null"
  | some s => jsonString s

/-- JSON rendering of a nullable integer. -/
def jsonOfOptInt : Option Int → String
  | none => "null"
  | some n => toString n

/-- The key/value pairs of one chunk, in dict insertion order. -/
def chunkFields (c : Chunk) : List (String × String) :=
  [("id", jsonString c.id),
   ("content_type", jsonString c.content_type),
   ("module", jsonOfOptStr c.module),
   ("day", jsonOfOptInt c.day),
   ("day_theme", jsonOfOptStr c.day_theme),
   ("session_number", toString c.session_number),
   ("activity_name", jsonOfOptStr c.activity_name),
   ("purpose", jsonOfOptStr c.purpose),
   ("duration", jsonOfOptStr c.duration),
   ("searchable_content", jsonString c.searchable_content),
   ("facilitator_script", jsonOfOptStr c.facilitator_script),
   ("transition_script", jsonOfOptStr c.transition_script)]

/-- One chunk rendered as json.dump renders a dict nested in a list at indent 2. -/
def chunkJson (c : Chunk) : String :=
  "  \x7b\n"
  ++ String.intercalate ",\n" ((chunkFields c).map fun kv => "    " ++ jsonString kv.1 ++ ": " ++ kv.2)
  ++ "\n  \x7d"

/-- The chunk list rendered as json.dump(chunks, indent=2, ensure_ascii=False):
an empty list renders as a bare empty array. -/
def exportJson : List Chunk → String
  | [] => "[]"
  | c :: cs => "[\n" ++ String.intercalate ",\n" ((c :: cs).map chunkJson) ++ "\n]"

/-- The printed per-module breakdown over the fixed hardcoded module list. -/
def moduleBreakdown (cs : List Chunk) : List (String × Nat) :=
  ["Architecture", "Solar", "Insulation"].map fun m =>
    (m, (cs.filter fun c => c.module == some m).length)

/-- One full run of the exporter: the chunk sequence, the serialized output
file contents, and the printed per-module breakdown. -/
def exportRun (db : DB) : List Chunk × String × List (String × Nat) :=
  (chunks db, exportJson (chunks db), moduleBreakdown (chunks db))

/-- Recogniser of a homework line: the text starts with the homework prefix. -/
def isHomeworkLine (p : String) : Bool :=
  "Homework: ".data.isPrefixOf p.data

/-- The (module, day number) key has at least one homework assignment with a
non-NULL title (the wording of the specification). -/
def hasTitledHw (db : DB) (m : Option String) (dn : Option Int) : Prop :=
  ∃ d ∈ db.days, d.module = m ∧ some d.day_number = dn ∧
    ∃ ha ∈ db.homework_assignments, ha.day_id = some d.id ∧ ha.title.isSome = true

instance (db : DB) (m : Option String) (dn : Option Int) : Decidable (hasTitledHw db m dn) := by
  unfold hasTitledHw; infer_instance

/-- The (module, day number) key has at least one homework assignment whose
title is truthy (non-NULL and non-empty), matching the Python truthiness test. -/
def hasTruthyTitledHw (db : DB) (m : Option String) (dn : Option Int) : Prop :=
  ∃ d ∈ db.days, d.module = m ∧ some d.day_number = dn ∧
    ∃ ha ∈ db.homework_assignments, ha.day_id = some d.id ∧ pyTruthy ha.title = true

instance (db : DB) (m : Option String) (dn : Option Int) : Decidable (hasTruthyTitledHw db m dn) := by
  unfold hasTruthyTitledHw; infer_instance

/-- An activity qualifies when its day join succeeds with a non-NULL module. -/
def qualifies (db : DB) (a : Activity) : Bool :=
  db.days.any fun d => a.day_id == some d.id && d.module.isSome

/-- Unfolding equation: joining at least two parts emits the first part, the
separator, and the join of the remainder. -/
theorem pyJoin_cons₂ (sep a b : String) (l : List String) :
    pyJoin sep (a :: b :: l) = a ++ sep ++ pyJoin sep (b :: l) := rfl

/-- Joining a non-empty list starts with its first element. -/
theorem pyJoin_cons_exists (sep a : String) (l : List String) :
    ∃ rest, pyJoin sep (a :: l) = a ++ rest := by
  cases l with
  | nil => exact ⟨"", by simp [pyJoin]⟩
  | cons b bs => exact ⟨sep ++ pyJoin sep (b :: bs), by simp [pyJoin_cons₂, String.append_assoc]⟩

/-- The content parts of any row start with the three header lines. -/
theorem contentParts_cons (hm : HwMap) (r : CtxRow) :
    contentParts hm r =
      ("Module: " ++ pyStr r.module)
      :: ("Day " ++ pyStrInt r.day_number ++ ": " ++ pyStr r.day_theme)
      :: ("Session " ++ toString r.sequence_order ++ ": " ++ pyStr r.activity_name)
      :: ((if pyTruthy r.learning_block_focus then
            ["Learning Block Focus: " ++ r.learning_block_focus.getD ""] else [])
          ++ (if pyTruthy r.purpose then ["Purpose: " ++ r.purpose.getD ""] else [])
          ++ (if pyTruthy r.duration then ["Duration: " ++ r.duration.getD ""] else [])
          ++ (if pyTruthy r.facilitator_script then
               ["Facilitator Script: " ++ r.facilitator_script.getD ""] else [])
          ++ (if pyTruthy r.transition_script then
               ["Transition: " ++ r.transition_script.getD ""] else [])
          ++ (match lookupHw hm (r.module, r.day_number) with
              | some items =>
                  if decide (3 ≤ r.sequence_order) && !items.isEmpty then
                    ["Homework: " ++ hwTextOf items]
                  else []
              | none => [])) := by
  simp [contentParts, List.append_assoc]

/-- C2: for every activity processed, whatever its optional fields, the
searchable content begins with exactly the three header lines Module, Day and
Session, which are never omitted. -/
theorem header_lines_always_present (hm : HwMap) (r : CtxRow) :
    (contentParts hm r).take 3 =
      ["Module: " ++ pyStr r.module,
       "Day " ++ pyStrInt r.day_number ++ ": " ++ pyStr r.day_theme,
       "Session " ++ toString r.sequence_order ++ ": " ++ pyStr r.activity_name] ∧
    ∃ rest, (chunkOf hm r).searchable_content =
      "Module: " ++ pyStr r.module ++ "\n"
      ++ ("Day " ++ pyStrInt r.day_number ++ ": " ++ pyStr r.day_theme) ++ "\n"
      ++ ("Session " ++ toString r.sequence_order ++ ": " ++ pyStr r.activity_name) ++ rest := by
  constructor
  · rw [contentParts_cons]; rfl
  · show ∃ rest, pyJoin "\n" (contentParts hm r) = _
    rw [contentParts_cons]
    obtain ⟨r3, hr3⟩ := pyJoin_cons_exists "\n"
      ("Session " ++ toString r.sequence_order ++ ": " ++ pyStr r.activity_name) _
    refine ⟨r3, ?_⟩
    rw [pyJoin_cons₂, pyJoin_cons₂, hr3]
    simp [String.append_assoc]

/-- C10: when the day theme is NULL, the second emitted line renders the NULL
as the literal text None, while the chunk's day_theme field stays NULL. -/
theorem null_theme_renders_as_None (hm : HwMap) (r : CtxRow) (h : r.day_theme = none) :
    (contentParts hm r)[1]? = some ("Day " ++ pyStrInt r.day_number ++ ": None") ∧
    (chunkOf hm r).day_theme = none := by
  have hcolon : (": " ++ "None" : String) = ": None" := by decide
  constructor
  · rw [contentParts_cons]
    show some _ = some _
    rw [h]
    show some ("Day " ++ pyStrInt r.day_number ++ ": " ++ "None") = _
    rw [String.append_assoc, hcolon]
  · show r.day_theme = none
    exact h

/-- Witness for C10 at a concrete row with a NULL theme. -/
theorem null_theme_renders_as_None_witness :
    (contentParts []
        { activity_id := 5, module := some "Solar", day_number := some 2, day_theme := none,
          activity_name := some "Intro", sequence_order := 1, purpose := none, duration := none,
          facilitator_script := none, transition_script := none, learning_block_focus := none })[1]?
      = some ("Day " ++ pyStrInt (some 2) ++ ": None") ∧
    (chunkOf []
        { activity_id := 5, module := some "Solar", day_number := some 2, day_theme := none,
          activity_name := some "Intro", sequence_order := 1, purpose := none, duration := none,
          facilitator_script := none, transition_script := none, learning_block_focus := none }).day_theme
      = none :=
  null_theme_renders_as_None _ _ rfl

/-- Sort key of a chunk: its module, day and session number, compared as the
ORDER BY clause compares them. -/
def chunkKey (c : Chunk) : SortKey :=
  toLex (toWB c.module, toLex (toWB c.day, c.session_number))

/-- Ascending chunk order by (module, day number, session number). -/
def chunkOrd (c1 c2 : Chunk) : Prop := chunkKey c1 ≤ chunkKey c2

/-- C4: the output chunk sequence is ordered by module, then day number, then
activity sequence order, ascending, exactly as the query orders rows. -/
theorem chunks_pairwise_sorted (db : DB) : (chunks db).Pairwise chunkOrd := by
  unfold chunks activitiesQuery
  rw [List.pairwise_map]
  have hs := List.sorted_insertionSort rowOrd (contextRows db)
  exact hs.imp fun hab => hab

/-- C6: the export is deterministic; two runs over the same source state
produce the same chunk sequence, the same serialized bytes and the same
printed breakdown. -/
theorem export_deterministic (db1 db2 : DB) (h : db1 = db2) :
    exportRun db1 = exportRun db2 := by rw [h]

/-- A concrete one-day source state used by witnesses. -/
def witnessDayOnlyDB : DB :=
  { days := [{ id := 1, module := some "Solar", day_number := 3, theme := none }], learning_blocks := [], activities := [], homework_assignments := [{ id := 9, day_id := some 1, title := some "Reading" }], homework_tasks := [] }

/-- Witness for C6 at a concrete source state. -/
theorem export_deterministic_witness :
    exportRun witnessDayOnlyDB = exportRun witnessDayOnlyDB :=
  export_deterministic _ _ rfl

/-- C7: an empty source (no activities) is not an error: the chunk sequence is
empty, the output file contains an empty JSON array, and the printed breakdown
shows zero for every module of the fixed list. -/
theorem empty_source_yields_empty_array (db : DB) (h : db.activities = []) :
    chunks db = [] ∧ exportJson (chunks db) = "[]" ∧
    moduleBreakdown (chunks db) = [("Architecture", 0), ("Solar", 0), ("Insulation", 0)] := by
  have hc : chunks db = [] := by
    unfold chunks activitiesQuery contextRows contextRowsAll
    rw [h]
    rfl
  refine ⟨hc, ?_, ?_⟩
  · rw [hc]; rfl
  · rw [hc]; rfl

/-- Witness for C7 at a concrete source with days and homework but no activities. -/
theorem empty_source_yields_empty_array_witness :
    chunks witnessDayOnlyDB = [] ∧ exportJson (chunks witnessDayOnlyDB) = "[]" ∧
    moduleBreakdown (chunks witnessDayOnlyDB) = [("Architecture", 0), ("Solar", 0), ("Insulation", 0)] :=
  empty_source_yields_empty_array _ rfl

/-- The content parts are the header and optional lines followed by the
homework tail. -/
theorem contentParts_split (hm : HwMap) (r : CtxRow) :
    contentParts hm r = headerAndOptionalParts r ++ homeworkTail hm r := by
  simp [contentParts, headerAndOptionalParts, homeworkTail, List.append_assoc]

/-- Appending preserves the head character of the data of a string. -/
theorem data_head_append (c s : String) {ch : Char} {t : List Char} (h : c.data = ch :: t) :
    (c ++ s).data = ch :: (t ++ s.data) := by
  rw [String.data_append, h]
  rfl

/-- A string whose first character differs from the homework prefix's first
character is not a homework line. -/
theorem isHomeworkLine_eq_false {p : String} {ch : Char} {t : List Char}
    (hdata : p.data = ch :: t) (hch : ch ≠ 'H') : isHomeworkLine p = false := by
  unfold isHomeworkLine
  rw [hdata]
  by_contra hne
  rw [Bool.not_eq_false, List.isPrefixOf_iff_prefix] at hne
  have h1 : "Homework: ".data = 'H' :: "omework: ".data := rfl
  rw [h1, List.cons_prefix_cons] at hne
  exact hch hne.1.symm

/-- Membership in a conditional list with an empty alternative implies
membership in the list of the positive branch. -/
theorem mem_ite_nil {α : Type} {c : Prop} [Decidable c] {p : α} {l : List α}
    (h : p ∈ (if c then l else [])) : p ∈ l := by
  split at h
  · exact h
  · exact absurd h (List.not_mem_nil p)

/-- Every header or optional line is one of eight constant-prefixed shapes. -/
theorem mem_headerAndOptionalParts (r : CtxRow) (p : String) (hp : p ∈ headerAndOptionalParts r) :
    p = "Module: " ++ pyStr r.module ∨
    p = "Day " ++ pyStrInt r.day_number ++ ": " ++ pyStr r.day_theme ∨
    p = "Session " ++ toString r.sequence_order ++ ": " ++ pyStr r.activity_name ∨
    p = "Learning Block Focus: " ++ r.learning_block_focus.getD "" ∨
    p = "Purpose: " ++ r.purpose.getD "" ∨
    p = "Duration: " ++ r.duration.getD "" ∨
    p = "Facilitator Script: " ++ r.facilitator_script.getD "" ∨
    p = "Transition: " ++ r.transition_script.getD "" := by
  unfold headerAndOptionalParts at hp
  simp only [List.mem_append, List.mem_cons, List.not_mem_nil, or_false] at hp
  rcases hp with ((((h3 | hA) | hB) | hC) | hD) | hE
  · rcases h3 with h | h | h
    · exact Or.inl h
    · exact Or.inr (Or.inl h)
    · exact Or.inr (Or.inr (Or.inl h))
  · exact Or.inr (Or.inr (Or.inr (Or.inl (List.mem_singleton.mp (mem_ite_nil hA)))))
  · exact Or.inr (Or.inr (Or.inr (Or.inr (Or.inl (List.mem_singleton.mp (mem_ite_nil hB))))))
  · exact Or.inr (Or.inr (Or.inr (Or.inr (Or.inr (Or.inl (List.mem_singleton.mp (mem_ite_nil hC)))))))
  · exact Or.inr (Or.inr (Or.inr (Or.inr (Or.inr (Or.inr (Or.inl
      (List.mem_singleton.mp (mem_ite_nil hD))))))))
  · exact Or.inr (Or.inr (Or.inr (Or.inr (Or.inr (Or.inr (Or.inr
      (List.mem_singleton.mp (mem_ite_nil hE))))))))

/-- No header or optional line is a homework line. -/
theorem not_homework_line_of_mem_head (r : CtxRow) (p : String)
    (hp : p ∈ headerAndOptionalParts r) : isHomeworkLine p = false := by
  rcases mem_headerAndOptionalParts r p hp with h|h|h|h|h|h|h|h <;> subst h
  · exact isHomeworkLine_eq_false (data_head_append "Module: " _ rfl) (by decide)
  · have h1 := data_head_append "Day " (pyStrInt r.day_number) rfl
    have h2 := data_head_append ("Day " ++ pyStrInt r.day_number) ": " h1
    have h3 := data_head_append ("Day " ++ pyStrInt r.day_number ++ ": ") (pyStr r.day_theme) h2
    exact isHomeworkLine_eq_false h3 (by decide)
  · have h1 := data_head_append "Session " (toString r.sequence_order) rfl
    have h2 := data_head_append ("Session " ++ toString r.sequence_order) ": " h1
    have h3 := data_head_append ("Session " ++ toString r.sequence_order ++ ": ") (pyStr r.activity_name) h2
    exact isHomeworkLine_eq_false h3 (by decide)
  · exact isHomeworkLine_eq_false (data_head_append "Learning Block Focus: " _ rfl) (by decide)
  · exact isHomeworkLine_eq_false (data_head_append "Purpose: " _ rfl) (by decide)
  · exact isHomeworkLine_eq_false (data_head_append "Duration: " _ rfl) (by decide)
  · exact isHomeworkLine_eq_false (data_head_append "Facilitator Script: " _ rfl) (by decide)
  · exact isHomeworkLine_eq_false (data_head_append "Transition: " _ rfl) (by decide)

/-- The homework tail holds at most one line. -/
theorem homeworkTail_length_le (hm : HwMap) (r : CtxRow) : (homeworkTail hm r).length ≤ 1 := by
  unfold homeworkTail
  cases hL : lookupHw hm (r.module, r.day_number) with
  | none => simp
  | some items => dsimp only; split <;> simp

/-- C9: when a homework line is present in the content parts, it is the last
part; no other line follows it. -/
theorem homework_line_is_last (hm : HwMap) (r : CtxRow) (i : Nat) (p : String)
    (hp : (contentParts hm r)[i]? = some p) (hhw : isHomeworkLine p = true) :
    i = (contentParts hm r).length - 1 := by
  have hsplit := contentParts_split hm r
  by_cases hlt : i < (headerAndOptionalParts r).length
  · exfalso
    have h1 : (contentParts hm r)[i]? = (headerAndOptionalParts r)[i]? := by
      rw [hsplit, List.getElem?_append, if_pos hlt]
    have hmem : p ∈ headerAndOptionalParts r := List.getElem?_mem (h1 ▸ hp)
    have hfalse := not_homework_line_of_mem_head r p hmem
    rw [hhw] at hfalse
    exact Bool.noConfusion hfalse
  · push_neg at hlt
    have hi : i < (contentParts hm r).length := (List.getElem?_eq_some.mp hp).1
    have hlen : (contentParts hm r).length
        = (headerAndOptionalParts r).length + (homeworkTail hm r).length := by
      rw [hsplit]
      exact List.length_append _ _
    have htl := homeworkTail_length_le hm r
    omega

/-- Witness for C9: a concrete row whose homework line sits at the last index. -/
theorem homework_line_is_last_witness :
    3 = (contentParts [((some "Solar", some 3), [⟨"Reading", "Read ch. 4"⟩])]
          { activity_id := 7, module := some "Solar", day_number := some 3, day_theme := none,
            activity_name := some "Lab", sequence_order := 4, purpose := none, duration := none,
            facilitator_script := none, transition_script := none, learning_block_focus := none }).length - 1 :=
  homework_line_is_last _ _ 3 ("Homework: " ++ hwTextOf [⟨"Reading", "Read ch. 4"⟩])
    (by decide) (by decide)

/-- Lookup in the empty dict yields nothing. -/
theorem lookupHw_nil (k : HwKey) : lookupHw [] k = none := rfl

/-- Lookup steps through the head entry of the dict. -/
theorem lookupHw_cons (e : HwKey × List HwItem) (m : HwMap) (k : HwKey) :
    lookupHw (e :: m) k = if e.1 == k then some e.2 else lookupHw m k := by
  unfold lookupHw
  rw [List.find?_cons]
  cases h : (e.1 == k) <;> simp [h]

/-- Lookup after appending a single fresh entry at the end of the dict. -/
theorem lookupHw_append_single (m : HwMap) (k k2 : HwKey) (v : List HwItem) :
    lookupHw (m ++ [(k, v)]) k2 =
      match lookupHw m k2 with
      | some items => some items
      | none => if k == k2 then some v else none := by
  unfold lookupHw
  rw [List.find?_append]
  cases hf : List.find? (fun e => e.1 == k2) m with
  | none =>
      simp only [Option.none_or, Option.map_none]
      by_cases hk : (k == k2)
      · rw [List.find?_cons_of_pos _ (by simpa using hk), if_pos hk]
        rfl
      · rw [List.find?_cons_of_neg _ (by simpa using hk), if_neg hk]
        rfl
  | some e => rfl

/-- Updating the dict at a key rewrites the value found at that key. -/
theorem lookupHw_setHw_self (m : HwMap) (k : HwKey) (v : List HwItem)
    (h : (lookupHw m k).isSome = true) : lookupHw (setHw m k v) k = some v := by
  induction m with
  | nil => rw [lookupHw_nil] at h; simp at h
  | cons e es ih =>
      rw [lookupHw_cons] at h
      show lookupHw ((if e.1 == k then (e.1, v) else e) :: setHw es k v) k = some v
      by_cases he : e.1 == k
      · rw [if_pos he, lookupHw_cons, if_pos he]
      · rw [if_neg he, lookupHw_cons, if_neg he]
        rw [if_neg he] at h
        exact ih h

/-- Updating the dict at one key leaves lookups at other keys unchanged. -/
theorem lookupHw_setHw_ne (m : HwMap) (k k2 : HwKey) (v : List HwItem)
    (h : k2 ≠ k) : lookupHw (setHw m k v) k2 = lookupHw m k2 := by
  induction m with
  | nil => rfl
  | cons e es ih =>
      show lookupHw ((if e.1 == k then (e.1, v) else e) :: setHw es k v) k2 = _
      by_cases he : e.1 == k
      · have hek : e.1 = k := by simpa using he
        have hne : (e.1 == k2) = false := by
          simp [hek]
          exact fun hcontra => h hcontra.symm
        rw [if_pos he, lookupHw_cons, lookupHw_cons, hne]
        simp only [Bool.false_eq_true, if_false]
        exact ih
      · rw [if_neg he, lookupHw_cons, lookupHw_cons]
        by_cases h2 : e.1 == k2
        · rw [if_pos h2, if_pos h2]
        · rw [if_neg h2, if_neg h2]
          exact ih

/-- Ensuring a key makes lookups at that key yield its previous entries or an
empty list. -/
theorem lookupHw_ensureKey_self (m : HwMap) (k0 : HwKey) :
    lookupHw (ensureKey m k0) k0 = some ((lookupHw m k0).getD []) := by
  unfold ensureKey
  cases hin : lookupHw m k0 with
  | some items =>
      rw [if_pos (show (some items).isSome = true from rfl), hin]
      rfl
  | none =>
      rw [if_neg (by simp), lookupHw_append_single, hin]
      simp

/-- Ensuring a key leaves lookups at other keys unchanged. -/
theorem lookupHw_ensureKey_ne (m : HwMap) (k0 k : HwKey) (h : k ≠ k0) :
    lookupHw (ensureKey m k0) k = lookupHw m k := by
  unfold ensureKey
  cases hin : lookupHw m k0 with
  | some items => rw [if_pos (show (some items).isSome = true from rfl)]
  | none =>
      rw [if_neg (by simp), lookupHw_append_single]
      have hne : (k0 == k) = false := by
        simp
        exact fun hc => h hc.symm
      cases hk : lookupHw m k with
      | some its => rfl
      | none => simp [hne]

/-- Lookup after processing one homework result row: at the row's key, the
previous entries (or an empty fresh list) extended by the row's entry when its
title is truthy; other keys unchanged. -/
theorem lookupHw_addHwRow (m : HwMap) (row : HwRow) (k : HwKey) :
    lookupHw (addHwRow m row) k =
      if rkeyOf row == k then
        some ((lookupHw m k).getD [] ++ (if truthyTitle row then [mkItem row] else []))
      else lookupHw m k := by
  have hpair : ((row.module, row.day_number) : HwKey) = rkeyOf row := rfl
  by_cases hk : rkeyOf row = k
  · subst hk
    rw [if_pos (by simp)]
    unfold addHwRow
    cases hti : row.homework_title with
    | none =>
        dsimp only
        rw [hpair, lookupHw_ensureKey_self]
        simp [truthyTitle, pyTruthy, hti]
    | some t =>
        by_cases hte : t == ""
        · dsimp only
          rw [if_pos hte, hpair, lookupHw_ensureKey_self]
          simp [truthyTitle, pyTruthy, hti, hte]
        · dsimp only
          rw [if_neg hte, hpair]
          rw [lookupHw_setHw_self _ _ _ (by rw [lookupHw_ensureKey_self]; rfl)]
          rw [lookupHw_ensureKey_self]
          have htb : (t == "") = false := by
            simpa [Bool.not_eq_true] using hte
          simp [truthyTitle, pyTruthy, hti, htb, mkItem]
  · rw [if_neg (by simp [hk])]
    have hkne : k ≠ rkeyOf row := fun hc => hk hc.symm
    unfold addHwRow
    cases hti : row.homework_title with
    | none =>
        dsimp only
        rw [hpair]
        exact lookupHw_ensureKey_ne m _ k hkne
    | some t =>
        by_cases hte : t == ""
        · dsimp only
          rw [if_pos hte, hpair]
          exact lookupHw_ensureKey_ne m _ k hkne
        · dsimp only
          rw [if_neg hte, hpair]
          rw [lookupHw_setHw_ne _ _ _ _ hkne]
          exact lookupHw_ensureKey_ne m _ k hkne

/-- The entries contributed by a row list split at its head row. -/
theorem newItems_cons (row : HwRow) (rows : List HwRow) (k : HwKey) :
    newItems (row :: rows) k =
      (if rkeyOf row == k && truthyTitle row then [mkItem row] else []) ++ newItems rows k := by
  unfold newItems
  rw [List.filter_cons]
  by_cases h : (rkeyOf row == k && truthyTitle row)
  · rw [if_pos h, List.map_cons, if_pos h]
    rfl
  · rw [if_neg h, if_neg h]
    rfl

/-- Characterization of the dict built by folding homework result rows over an
accumulator: at each key, the accumulator's entries extended by the entries of
the title-bearing rows at that key; a key absent from the accumulator appears
exactly when some row carries it. -/
theorem lookupHw_foldl (rows : List HwRow) : ∀ (acc : HwMap) (k : HwKey),
    lookupHw (rows.foldl addHwRow acc) k =
      match lookupHw acc k with
      | some items => some (items ++ newItems rows k)
      | none =>
          if rows.any (fun row => rkeyOf row == k) then some (newItems rows k) else none := by
  induction rows with
  | nil =>
      intro acc k
      simp only [List.foldl_nil, List.any_nil]
      cases lookupHw acc k with
      | some items => simp [newItems]
      | none => simp
  | cons row rows ih =>
      intro acc k
      rw [List.foldl_cons, ih, lookupHw_addHwRow, newItems_cons, List.any_cons]
      by_cases hk : rkeyOf row = k
      · have hkb : (rkeyOf row == k) = true := by simp [hk]
        rw [hkb]
        simp only [if_true, Bool.true_or, Bool.true_and]
        cases lookupHw acc k with
        | some items =>
            by_cases ht : truthyTitle row = true <;> simp [ht, List.append_assoc]
        | none =>
            by_cases ht : truthyTitle row = true <;> simp [ht, List.append_assoc]
      · have hkb : (rkeyOf row == k) = false := by simp [hk]
        rw [hkb]
        simp only [Bool.false_and, Bool.false_or, if_false, Bool.false_eq_true]
        cases lookupHw acc k with
        | some items => simp
        | none => simp

/-- The homework lookup at a key: present exactly when some homework result row
carries the key, holding the entries of the title-bearing rows at that key. -/
theorem lookupHw_homework_by_day (db : DB) (k : HwKey) :
    lookupHw (homework_by_day db) k =
      if (homeworkRows db).any (fun row => rkeyOf row == k) then
        some (newItems (homeworkRows db) k)
      else none := by
  unfold homework_by_day
  rw [lookupHw_foldl]
  rfl

/-- Folding the key collector over an accumulator collects exactly the
accumulator's keys and the keys of the rows. -/
theorem mem_groupKeys_foldl (rows : List HwJoinRow) : ∀ (ks : List GKey) (k : GKey),
    (k ∈ rows.foldl (fun ks r => if hwKey r ∈ ks then ks else ks ++ [hwKey r]) ks) ↔
      (k ∈ ks ∨ ∃ r ∈ rows, hwKey r = k) := by
  induction rows with
  | nil => intro ks k; simp
  | cons r rows ih =>
      intro ks k
      rw [List.foldl_cons, ih]
      by_cases h : hwKey r ∈ ks
      · rw [if_pos h]
        constructor
        · rintro (hks | ⟨r2, hr2, hk2⟩)
          · exact Or.inl hks
          · exact Or.inr ⟨r2, List.mem_cons_of_mem r hr2, hk2⟩
        · rintro (hks | ⟨r2, hr2, hk2⟩)
          · exact Or.inl hks
          · rcases List.mem_cons.mp hr2 with rfl | hr2b
            · exact Or.inl (hk2 ▸ h)
            · exact Or.inr ⟨r2, hr2b, hk2⟩
      · rw [if_neg h]
        constructor
        · rintro (hks | ⟨r2, hr2, hk2⟩)
          · rcases List.mem_append.mp hks with hks2 | hks2
            · exact Or.inl hks2
            · exact Or.inr ⟨r, List.mem_cons_self r rows, (List.mem_singleton.mp hks2).symm⟩
          · exact Or.inr ⟨r2, List.mem_cons_of_mem r hr2, hk2⟩
        · rintro (hks | ⟨r2, hr2, hk2⟩)
          · exact Or.inl (List.mem_append.mpr (Or.inl hks))
          · rcases List.mem_cons.mp hr2 with rfl | hr2b
            · exact Or.inl (List.mem_append.mpr (Or.inr (List.mem_singleton.mpr hk2.symm)))
            · exact Or.inr ⟨r2, hr2b, hk2⟩

/-- A group key occurs exactly when some join row carries it. -/
theorem mem_groupKeys (rows : List HwJoinRow) (k : GKey) :
    k ∈ groupKeys rows ↔ ∃ r ∈ rows, hwKey r = k := by
  unfold groupKeys
  rw [mem_groupKeys_foldl]
  simp

/-- A group key occurs exactly when some join row carries it (restated). -/
theorem mem_assignmentJoinRows {db : DB} {d : Day} {ha : HomeworkAssignment} {jr : HwJoinRow}
    (h : jr ∈ assignmentJoinRows db d ha) : jr.1 = d ∧ jr.2.1 = some ha := by
  simp only [assignmentJoinRows] at h
  by_cases hemp : (assignmentTaskRows db ha).isEmpty
  · rw [if_pos hemp] at h
    rw [List.mem_singleton.mp h]
    exact ⟨rfl, rfl⟩
  · rw [if_neg hemp] at h
    obtain ⟨ht, _, hev⟩ := List.mem_map.mp h
    rw [← hev]
    exact ⟨rfl, rfl⟩

/-- The task component of a join row contributed by an assignment is NULL or
one of the assignment's task rows. -/
theorem task_of_mem_assignmentJoinRows {db : DB} {d : Day} {ha : HomeworkAssignment}
    {jr : HwJoinRow} (h : jr ∈ assignmentJoinRows db d ha) :
    jr.2.2 = none ∨ ∃ ht ∈ assignmentTaskRows db ha, jr.2.2 = some ht := by
  simp only [assignmentJoinRows] at h
  by_cases hemp : (assignmentTaskRows db ha).isEmpty
  · rw [if_pos hemp] at h
    rw [List.mem_singleton.mp h]
    exact Or.inl rfl
  · rw [if_neg hemp] at h
    obtain ⟨ht, hhtm, hev⟩ := List.mem_map.mp h
    rw [← hev]
    exact Or.inr ⟨ht, hhtm, rfl⟩

/-- Case split for membership in a day's join rows. -/
theorem mem_dayHwRows_cases {db : DB} {d : Day} {jr : HwJoinRow} (h : jr ∈ dayHwRows db d) :
    (dayAssignments db d = [] ∧ jr = (d, none, none)) ∨
      ∃ ha ∈ dayAssignments db d, jr ∈ assignmentJoinRows db d ha := by
  simp only [dayHwRows] at h
  by_cases hemp : (dayAssignments db d).isEmpty
  · rw [if_pos hemp] at h
    exact Or.inl ⟨List.isEmpty_iff.mp hemp, List.mem_singleton.mp h⟩
  · rw [if_neg hemp] at h
    exact Or.inr (List.mem_flatMap.mp h)

/-- Every join row contributed by a day carries that day as its first component. -/
theorem fst_of_mem_dayHwRows {db : DB} {d : Day} {jr : HwJoinRow} (h : jr ∈ dayHwRows db d) :
    jr.1 = d := by
  rcases mem_dayHwRows_cases h with ⟨_, rfl⟩ | ⟨ha, _, hjr⟩
  · rfl
  · exact (mem_assignmentJoinRows hjr).1

/-- A day with no matching assignment contributes exactly its all-NULL row. -/
theorem no_assignment_row_mem {db : DB} {d : Day} (h : dayAssignments db d = []) :
    (d, none, none) ∈ dayHwRows db d := by
  simp only [dayHwRows]
  rw [if_pos (List.isEmpty_iff.mpr h)]
  exact List.mem_singleton.mpr rfl

/-- Join rows of a matching assignment are join rows of the day. -/
theorem mem_dayHwRows_of_assignment {db : DB} {d : Day} {ha : HomeworkAssignment}
    {jr : HwJoinRow} (hha : ha ∈ dayAssignments db d) (hjr : jr ∈ assignmentJoinRows db d ha) :
    jr ∈ dayHwRows db d := by
  simp only [dayHwRows]
  rw [if_neg (by rw [List.isEmpty_iff]; exact List.ne_nil_of_mem hha)]
  exact List.mem_flatMap.mpr ⟨ha, hha, hjr⟩

/-- Every assignment contributes at least one join row carrying it. -/
theorem exists_mem_assignmentJoinRows (db : DB) (d : Day) (ha : HomeworkAssignment) :
    ∃ hto, (d, some ha, hto) ∈ assignmentJoinRows db d ha := by
  simp only [assignmentJoinRows]
  by_cases hemp : (assignmentTaskRows db ha).isEmpty
  · rw [if_pos hemp]
    exact ⟨none, List.mem_singleton.mpr rfl⟩
  · rw [if_neg hemp]
    cases hts : assignmentTaskRows db ha with
    | nil => rw [hts] at hemp; simp at hemp
    | cons ht rest =>
        exact ⟨some ht, List.mem_map.mpr ⟨ht, List.mem_cons_self ht rest, rfl⟩⟩

/-- A title-bearing homework result row exists at a (module, day number) key
exactly when the key has a homework assignment with a truthy title. -/
theorem truthy_row_iff (db : DB) (mo : Option String) (dn : Option Int)
    (hm : mo.isSome = true) :
    (∃ row ∈ homeworkRows db, rkeyOf row = (mo, dn) ∧ truthyTitle row = true) ↔
      hasTruthyTitledHw db mo dn := by
  constructor
  · rintro ⟨row, hrow, hkey, htr⟩
    simp only [homeworkRows] at hrow
    obtain ⟨gk, hgk, hroweq⟩ := List.mem_map.mp hrow
    subst hroweq
    obtain ⟨jr, hjrf, hk⟩ := (mem_groupKeys _ _).mp hgk
    subst hk
    obtain ⟨hjmem, hjmod⟩ := List.mem_filter.mp hjrf
    simp only [hwJoinRows] at hjmem
    obtain ⟨d, hd, hday⟩ := List.mem_flatMap.mp hjmem
    have hfst : jr.1 = d := fst_of_mem_dayHwRows hday
    have hkey2 : ((jr.1.module, some jr.1.day_number) : HwKey) = (mo, dn) := hkey
    have htr2 : pyTruthy (jr.2.1.bind HomeworkAssignment.title) = true := htr
    rcases mem_dayHwRows_cases hday with ⟨_, rfl⟩ | ⟨ha, hham, hjr2⟩
    · simp [pyTruthy] at htr2
    · have hsnd : jr.2.1 = some ha := (mem_assignmentJoinRows hjr2).2
      rw [hsnd] at htr2
      rw [hfst] at hkey2
      have hmo : d.module = mo := congrArg Prod.fst hkey2
      have hdn : some d.day_number = dn := congrArg Prod.snd hkey2
      exact ⟨d, hd, hmo, hdn, ha, (List.mem_filter.mp hham).1,
        by simpa using (List.mem_filter.mp hham).2, htr2⟩
  · rintro ⟨d, hd, hdm, hddn, ha, hha, hdayid, htruthy⟩
    have hham : ha ∈ dayAssignments db d := List.mem_filter.mpr ⟨hha, by simp [hdayid]⟩
    obtain ⟨hto, hjrmem⟩ := exists_mem_assignmentJoinRows db d ha
    have hrows : ((d, some ha, hto) : HwJoinRow) ∈ hwJoinRows db := by
      simp only [hwJoinRows]
      exact List.mem_flatMap.mpr ⟨d, hd, mem_dayHwRows_of_assignment hham hjrmem⟩
    have hmodS : ((d, some ha, hto) : HwJoinRow).1.module.isSome = true := by
      show d.module.isSome = true
      rw [hdm]
      exact hm
    have hjrf : ((d, some ha, hto) : HwJoinRow) ∈ hwJoinFiltered db :=
      List.mem_filter.mpr ⟨hrows, hmodS⟩
    have hgk : hwKey (d, some ha, hto) ∈ groupKeys (hwJoinFiltered db) :=
      (mem_groupKeys _ _).mpr ⟨_, hjrf, rfl⟩
    refine ⟨hwRowOfKey (hwJoinFiltered db) (hwKey (d, some ha, hto)), ?_, ?_, ?_⟩
    · simp only [homeworkRows]
      exact List.mem_map.mpr ⟨_, hgk, rfl⟩
    · show ((d.module, some d.day_number) : HwKey) = (mo, dn)
      rw [hdm, hddn]
    · show pyTruthy ((some ha).bind HomeworkAssignment.title) = true
      simpa using htruthy

/-- The entry list at a key is non-empty exactly when some title-bearing
result row carries that key. -/
theorem newItems_ne_nil_iff (rows : List HwRow) (k : HwKey) :
    newItems rows k ≠ [] ↔ ∃ row ∈ rows, rkeyOf row = k ∧ truthyTitle row = true := by
  unfold newItems
  simp only [Ne, List.map_eq_nil_iff, List.filter_eq_nil_iff, Bool.and_eq_true, beq_iff_eq,
    not_forall]
  constructor
  · rintro ⟨row, hrow, hp⟩
    rw [Classical.not_not] at hp
    exact ⟨row, hrow, hp⟩
  · rintro ⟨row, hrow, hp⟩
    exact ⟨row, hrow, by rw [Classical.not_not]; exact hp⟩

/-- A homework line sits in the content parts exactly when the homework tail is
non-empty. -/
theorem homework_line_mem_iff_tail (hm : HwMap) (r : CtxRow) :
    (∃ p ∈ contentParts hm r, isHomeworkLine p = true) ↔ homeworkTail hm r ≠ [] := by
  constructor
  · rintro ⟨p, hp, hhw⟩
    rw [contentParts_split] at hp
    rcases List.mem_append.mp hp with hph | hpt
    · rw [not_homework_line_of_mem_head r p hph] at hhw
      exact Bool.noConfusion hhw
    · exact List.ne_nil_of_mem hpt
  · intro hne
    unfold homeworkTail at hne
    cases hL : lookupHw hm (r.module, r.day_number) with
    | none => rw [hL] at hne; simp at hne
    | some items =>
        rw [hL] at hne
        dsimp only at hne
        by_cases hc : (decide (3 ≤ r.sequence_order) && !items.isEmpty)
        · refine ⟨"Homework: " ++ hwTextOf items, ?_, ?_⟩
          · rw [contentParts_split]
            refine List.mem_append.mpr (Or.inr ?_)
            unfold homeworkTail
            rw [hL]
            dsimp only
            rw [if_pos hc]
            exact List.mem_singleton.mpr rfl
          · unfold isHomeworkLine
            rw [String.data_append]
            exact List.isPrefixOf_iff_prefix.mpr (List.prefix_append _ _)
        · rw [if_neg hc] at hne
          exact absurd rfl hne

/-- C1 (amended): a chunk's content carries a homework line exactly when the
activity's sequence order is at least 3 and the (module, day number) key has a
homework assignment whose title is truthy (non-NULL and non-empty). -/
theorem homework_line_iff (db : DB) (r : CtxRow) (hr : r ∈ activitiesQuery db) :
    (∃ p ∈ contentParts (homework_by_day db) r, isHomeworkLine p = true) ↔
      (3 ≤ r.sequence_order ∧ hasTruthyTitledHw db r.module r.day_number) := by
  have hr2 : r ∈ contextRows db :=
    (List.perm_insertionSort rowOrd (contextRows db)).mem_iff.mp hr
  have hmod : r.module.isSome = true := (List.mem_filter.mp hr2).2
  rw [homework_line_mem_iff_tail]
  unfold homeworkTail
  rw [lookupHw_homework_by_day]
  cases hany : (homeworkRows db).any (fun row => rkeyOf row == (r.module, r.day_number)) with
  | false =>
      simp only [Bool.false_eq_true, if_false]
      constructor
      · intro hcontra
        exact absurd rfl hcontra
      · rintro ⟨_, htit⟩
        obtain ⟨row, hrow, hkey, htr⟩ :=
          (truthy_row_iff db r.module r.day_number hmod).mpr htit
        have : (homeworkRows db).any (fun row => rkeyOf row == (r.module, r.day_number)) = true :=
          List.any_eq_true.mpr ⟨row, hrow, by simp [hkey]⟩
        rw [hany] at this
        exact Bool.noConfusion this
  | true =>
      rw [if_pos rfl]
      dsimp only
      constructor
      · intro hne
        by_cases hc : (decide (3 ≤ r.sequence_order)
            && !(newItems (homeworkRows db) (r.module, r.day_number)).isEmpty)
        · have hc2 := hc
          rw [Bool.and_eq_true, decide_eq_true_iff] at hc2
          refine ⟨hc2.1, ?_⟩
          have hitem : newItems (homeworkRows db) (r.module, r.day_number) ≠ [] := by
            intro hnil
            rw [hnil] at hc2
            simp at hc2
          exact (truthy_row_iff db r.module r.day_number hmod).mp
            ((newItems_ne_nil_iff _ _).mp hitem)
        · rw [if_neg hc] at hne
          exact absurd rfl hne
      · rintro ⟨hseq, htit⟩
        have hitems : newItems (homeworkRows db) (r.module, r.day_number) ≠ [] :=
          (newItems_ne_nil_iff _ _).mpr
            ((truthy_row_iff db r.module r.day_number hmod).mpr htit)
        have hc : (decide (3 ≤ r.sequence_order)
            && !(newItems (homeworkRows db) (r.module, r.day_number)).isEmpty) = true := by
          rw [Bool.and_eq_true, decide_eq_true_iff]
          exact ⟨hseq, by simpa [List.isEmpty_iff] using hitems⟩
        rw [if_pos hc]
        simp

/-- A concrete source state matching the specification's worked example. -/
def c1WitnessDB : DB :=
  { days := [⟨1, some "Solar", 3, some "Photovoltaics"⟩], learning_blocks := [], activities := [⟨42, some 1, none, some "Panel Wiring Lab", 4, some "Hands-on wiring practice", some "45 min", some "Walk through safety steps", none⟩], homework_assignments := [⟨7, some 1, some "Reading"⟩], homework_tasks := [⟨some 7, some "Read ch. 4"⟩, ⟨some 7, some "Quiz prep"⟩] }

/-- The activities-query row of the worked example. -/
def c1WitnessRow : CtxRow :=
  { activity_id := 42, module := some "Solar", day_number := some 3, day_theme := some "Photovoltaics", activity_name := some "Panel Wiring Lab", sequence_order := 4, purpose := some "Hands-on wiring practice", duration := some "45 min", facilitator_script := some "Walk through safety steps", transition_script := none, learning_block_focus := none }

/-- Witness for C1 at the worked example's row. -/
theorem homework_line_iff_witness :
    (∃ p ∈ contentParts (homework_by_day c1WitnessDB) c1WitnessRow, isHomeworkLine p = true) ↔
      (3 ≤ c1WitnessRow.sequence_order ∧
        hasTruthyTitledHw c1WitnessDB c1WitnessRow.module c1WitnessRow.day_number) :=
  homework_line_iff c1WitnessDB c1WitnessRow (by decide)

/-- A source state whose only homework assignment has the empty string as its
title: the title is non-NULL, yet the exporter emits no homework line. -/
def c1CounterDB : DB :=
  { days := [⟨1, some "Solar", 3, none⟩], learning_blocks := [], activities := [⟨10, some 1, none, some "Lab", 3, none, none, none, none⟩], homework_assignments := [⟨7, some 1, some ""⟩], homework_tasks := [] }

/-- Counterexample to C1 as stated: a late-session activity whose (module, day)
key has a homework assignment with a non-NULL title, yet whose content carries
no homework line, because the empty-string title fails the truthiness test. -/
theorem homework_line_iff_counterexample :
    ∃ r ∈ activitiesQuery c1CounterDB,
      3 ≤ r.sequence_order ∧ hasTitledHw c1CounterDB r.module r.day_number ∧
      ∀ p ∈ contentParts (homework_by_day c1CounterDB) r, isHomeworkLine p = false := by
  decide

/-- Every filtered join row belongs to the join rows of its own day, which is a
stored day with a non-NULL module. -/
theorem day_of_join_row {db : DB} {jr : HwJoinRow} (h : jr ∈ hwJoinFiltered db) :
    jr.1 ∈ db.days ∧ jr ∈ dayHwRows db jr.1 ∧ jr.1.module.isSome = true := by
  obtain ⟨hmem, hmod⟩ := List.mem_filter.mp h
  simp only [hwJoinRows] at hmem
  obtain ⟨d, hd, hday⟩ := List.mem_flatMap.mp hmem
  have hfst : jr.1 = d := fst_of_mem_dayHwRows hday
  subst hfst
  exact ⟨hd, hday, hmod⟩

/-- A day with no matching assignment contributes exactly one all-NULL join row. -/
theorem dayHwRows_of_no_assignments {db : DB} {d : Day} (h : dayAssignments db d = []) :
    dayHwRows db d = [(d, none, none)] := by
  simp only [dayHwRows]
  rw [if_pos (List.isEmpty_iff.mpr h)]

/-- C8: a day with a non-NULL module and zero homework assignments yields a
result row with NULL title and NULL tasks, and the final homework lookup at its
(module, day number) key holds no entry (an empty list). -/
theorem day_without_assignments (db : DB) (d : Day)
    (hd : d ∈ db.days) (hmod : d.module.isSome = true)
    (hnodup : (db.days.map Day.id).Nodup)
    (huniq : ∀ d2 ∈ db.days, d2.module = d.module → d2.day_number = d.day_number → d2 = d)
    (hnoha : dayAssignments db d = []) :
    (⟨d.id, d.module, some d.day_number, none, none⟩ : HwRow) ∈ homeworkRows db ∧
    lookupHw (homework_by_day db) (d.module, some d.day_number) = some [] := by
  have hjr : ((d, none, none) : HwJoinRow) ∈ dayHwRows db d := no_assignment_row_mem hnoha
  have hjrall : ((d, none, none) : HwJoinRow) ∈ hwJoinRows db := by
    simp only [hwJoinRows]
    exact List.mem_flatMap.mpr ⟨d, hd, hjr⟩
  have hjrf : ((d, none, none) : HwJoinRow) ∈ hwJoinFiltered db :=
    List.mem_filter.mpr ⟨hjrall, hmod⟩
  have hgk : hwKey (d, none, none) ∈ groupKeys (hwJoinFiltered db) :=
    (mem_groupKeys _ _).mpr ⟨_, hjrf, rfl⟩
  have hsameday : ∀ jr2 ∈ hwJoinFiltered db, jr2.1.id = d.id → jr2 = (d, none, none) := by
    intro jr2 hjr2 hid
    obtain ⟨hd2, hday2, _⟩ := day_of_join_row hjr2
    have heq : jr2.1 = d := List.inj_on_of_nodup_map hnodup hd2 hd hid
    rw [heq, dayHwRows_of_no_assignments hnoha] at hday2
    exact List.mem_singleton.mp hday2
  constructor
  · simp only [homeworkRows]
    refine List.mem_map.mpr ⟨hwKey (d, none, none), hgk, ?_⟩
    have htasks :
        ((hwJoinFiltered db).filter fun r => hwKey r == hwKey (d, none, none)).map
            (fun r => r.2.2.bind HomeworkTask.task) = [none] →
        True := fun _ => trivial
    have hnilmap : (((hwJoinFiltered db).filter fun r => hwKey r == hwKey (d, none, none)).map
        (fun r => r.2.2.bind HomeworkTask.task)).filterMap id = [] := by
      rw [List.filterMap_eq_nil_iff]
      intro x hx
      obtain ⟨jr2, hjr2, hxeq⟩ := List.mem_map.mp hx
      obtain ⟨hjr2f, hjr2k⟩ := List.mem_filter.mp hjr2
      have hid : jr2.1.id = d.id := by
        have := (beq_iff_eq.mp hjr2k)
        exact congrArg (fun gk => gk.1) this
      rw [hsameday jr2 hjr2f hid] at hxeq
      rw [← hxeq]
      rfl
    show hwRowOfKey (hwJoinFiltered db) (hwKey (d, none, none)) = _
    unfold hwRowOfKey
    have hgc : groupConcat " | " (((hwJoinFiltered db).filter
        fun r => hwKey r == hwKey (d, none, none)).map
        (fun r => r.2.2.bind HomeworkTask.task)) = none := by
      unfold groupConcat
      rw [hnilmap]
    rw [hgc]
    rfl
  · rw [lookupHw_homework_by_day]
    have hany : ((homeworkRows db).any
        fun row => rkeyOf row == (d.module, some d.day_number)) = true := by
      refine List.any_eq_true.mpr ⟨hwRowOfKey (hwJoinFiltered db) (hwKey (d, none, none)), ?_, ?_⟩
      · simp only [homeworkRows]
        exact List.mem_map.mpr ⟨_, hgk, rfl⟩
      · show ((((d, none, none) : HwJoinRow).1.module, some d.day_number) : HwKey)
            == (d.module, some d.day_number)
        simp
    rw [if_pos hany]
    have hnew : newItems (homeworkRows db) (d.module, some d.day_number) = [] := by
      unfold newItems
      rw [List.map_eq_nil_iff, List.filter_eq_nil_iff]
      intro row hrow
      simp only [homeworkRows] at hrow
      obtain ⟨gk2, hgk2, hroweq⟩ := List.mem_map.mp hrow
      obtain ⟨jr2, hjr2f, hk2⟩ := (mem_groupKeys _ _).mp hgk2
      subst hk2
      subst hroweq
      rw [Bool.and_eq_true, beq_iff_eq]
      rintro ⟨hkeq, htr⟩
      have hkey2 : ((jr2.1.module, some jr2.1.day_number) : HwKey)
          = (d.module, some d.day_number) := hkeq
      have hm2 : jr2.1.module = d.module := congrArg Prod.fst hkey2
      have hn2 : jr2.1.day_number = d.day_number := by
        have := congrArg Prod.snd hkey2
        simpa using this
      obtain ⟨hd2, hday2, _⟩ := day_of_join_row hjr2f
      have heq : jr2.1 = d := huniq jr2.1 hd2 hm2 hn2
      rw [heq, dayHwRows_of_no_assignments hnoha] at hday2
      have hjr2eq := List.mem_singleton.mp hday2
      rw [hjr2eq] at htr
      simp [hwRowOfKey, hwKey, truthyTitle, pyTruthy] at htr
    rw [hnew]

/-- Witness for C8 at a concrete day with no assignments. -/
theorem day_without_assignments_witness :
    (⟨1, some "Solar", some 3, none, none⟩ : HwRow)
        ∈ homeworkRows { days := [⟨1, some "Solar", 3, none⟩], learning_blocks := [], activities := [], homework_assignments := [⟨9, some 2, some "Reading"⟩], homework_tasks := [] } ∧
    lookupHw (homework_by_day { days := [⟨1, some "Solar", 3, none⟩], learning_blocks := [], activities := [], homework_assignments := [⟨9, some 2, some "Reading"⟩], homework_tasks := [] }) (some "Solar", some 3) = some [] :=
  day_without_assignments _ ⟨1, some "Solar", 3, none⟩ (by decide) (by decide) (by decide)
    (by decide) (by decide)

/-- A flatMap over a duplicate-free list collapses to the image of one element
when every other element contributes nothing. -/
theorem flatMap_eq_of_unique {α β : Type} (l : List α) (g : α → List β) (a : α)
    (hmem : a ∈ l) (hnd : l.Nodup) (hz : ∀ b ∈ l, b ≠ a → g b = []) :
    l.flatMap g = g a := by
  induction l with
  | nil => cases hmem
  | cons x xs ih =>
      rw [List.flatMap_cons]
      rcases List.mem_cons.mp hmem with rfl | hmem2
      · have hnil : xs.flatMap g = [] := by
          rw [List.flatMap_eq_nil_iff]
          intro b hb
          exact hz b (List.mem_cons_of_mem _ hb)
            (fun hba => (List.nodup_cons.mp hnd).1 (hba ▸ hb))
        rw [hnil, List.append_nil]
      · have hxa : x ≠ a := by
          rintro rfl
          exact (List.nodup_cons.mp hnd).1 hmem2
        rw [hz x (List.mem_cons_self x xs) hxa, List.nil_append]
        exact ih hmem2 (List.nodup_cons.mp hnd).2
          (fun b hb hne => hz b (List.mem_cons_of_mem _ hb) hne)

/-- A day with a matching assignment contributes the join rows of its
assignments. -/
theorem dayHwRows_of_assignments {db : DB} {d : Day} (h : dayAssignments db d ≠ []) :
    dayHwRows db d = (dayAssignments db d).flatMap (assignmentJoinRows db d) := by
  simp only [dayHwRows]
  rw [if_neg (by rw [List.isEmpty_iff]; exact h)]

/-- An assignment with a matching task contributes one join row per task. -/
theorem assignmentJoinRows_of_tasks {db : DB} {d : Day} {ha : HomeworkAssignment}
    (h : assignmentTaskRows db ha ≠ []) :
    assignmentJoinRows db d ha = (assignmentTaskRows db ha).map fun ht => (d, some ha, some ht) := by
  simp only [assignmentJoinRows]
  rw [if_neg (by rw [List.isEmpty_iff]; exact h)]

/-- The homework text of any entry list produced by the dict construction is
the semicolon join of its title-colon-tasks renderings: the redundant
truthiness filter keeps every entry, because every stored entry has a
non-empty title. -/
theorem hwTextOf_newItems (rows : List HwRow) (k : HwKey) :
    hwTextOf (newItems rows k) = String.intercalate "; "
      ((newItems rows k).map fun hw => hw.title ++ ": " ++ hw.tasks) := by
  unfold hwTextOf
  rw [List.filter_eq_self.mpr]
  intro hw hhw
  unfold newItems at hhw
  obtain ⟨row2, hrow2, hweq⟩ := List.mem_map.mp hhw
  have htr := (List.mem_filter.mp hrow2).2
  rw [Bool.and_eq_true] at htr
  obtain ⟨-, htr2⟩ := htr
  unfold truthyTitle pyTruthy at htr2
  cases hti : row2.homework_title with
  | none => rw [hti] at htr2; exact Bool.noConfusion htr2
  | some t2 =>
      rw [hti] at htr2
      rw [← hweq]
      simp only [mkItem, hti, Option.getD_some]
      simpa using htr2

/-- The join rows of a group key restrict to the rows of the key's day. -/
theorem filtered_group_rows (db : DB) (d : Day) (gk : GKey)
    (hd : d ∈ db.days) (hnodupd : (db.days.map Day.id).Nodup) (hgkid : gk.1 = d.id) :
    (hwJoinFiltered db).filter (fun r => hwKey r == gk) =
      ((dayHwRows db d).filter (fun r => r.1.module.isSome)).filter (fun r => hwKey r == gk) := by
  unfold hwJoinFiltered
  simp only [hwJoinRows]
  rw [List.filter_flatMap, List.filter_flatMap]
  apply flatMap_eq_of_unique db.days _ d hd (List.Nodup.of_map _ hnodupd)
  intro d2 hd2 hne
  rw [List.filter_eq_nil_iff]
  intro jr hjr
  have hfst : jr.1 = d2 := fst_of_mem_dayHwRows (List.mem_filter.mp hjr).1
  rw [Bool.not_eq_true, beq_eq_false_iff_ne]
  intro hkeq
  apply hne
  apply List.inj_on_of_nodup_map hnodupd hd2 hd
  have hid : jr.1.id = gk.1 := congrArg Prod.fst hkeq
  rw [← hfst]
  exact hid.trans hgkid

/-- The join rows of the group key of one titled assignment are exactly the
rows of that assignment's tasks. -/
theorem day_group_rows (db : DB) (d : Day) (ha : HomeworkAssignment) (t : String)
    (hmod : d.module.isSome = true)
    (hham : ha ∈ dayAssignments db d)
    (hdan : (dayAssignments db d).Nodup)
    (htitle : ha.title = some t)
    (huniqt : ∀ ha2 ∈ dayAssignments db d, ha2.title = some t → ha2 = ha)
    (hts_ne : assignmentTaskRows db ha ≠ []) :
    ((dayHwRows db d).filter (fun r => r.1.module.isSome)).filter
        (fun r => hwKey r == ((d.id, d.module, d.day_number, some t) : GKey)) =
      (assignmentTaskRows db ha).map (fun ht => (d, some ha, some ht)) := by
  rw [dayHwRows_of_assignments (List.ne_nil_of_mem hham)]
  rw [List.filter_flatMap, List.filter_flatMap]
  have hz : ∀ ha2 ∈ dayAssignments db d, ha2 ≠ ha →
      ((assignmentJoinRows db d ha2).filter (fun r => r.1.module.isSome)).filter
        (fun r => hwKey r == ((d.id, d.module, d.day_number, some t) : GKey)) = [] := by
    intro ha2 hha2 hne
    rw [List.filter_eq_nil_iff]
    intro jr hjr
    obtain ⟨hfst, hsnd⟩ := mem_assignmentJoinRows (List.mem_filter.mp hjr).1
    rw [Bool.not_eq_true, beq_eq_false_iff_ne]
    intro hkeq
    apply hne
    apply huniqt ha2 hha2
    have htit : jr.2.1.bind HomeworkAssignment.title = some t := congrArg (fun x => x.2.2.2) hkeq
    rw [hsnd] at htit
    exact htit
  have hcol := flatMap_eq_of_unique (dayAssignments db d)
    (fun ha2 => ((assignmentJoinRows db d ha2).filter (fun r => r.1.module.isSome)).filter
        (fun r => hwKey r == ((d.id, d.module, d.day_number, some t) : GKey)))
    ha hham hdan hz
  rw [hcol]
  dsimp only
  rw [assignmentJoinRows_of_tasks hts_ne]
  rw [List.filter_eq_self.mpr ?keyall]
  case keyall =>
    intro jr hjr
    obtain ⟨ht, _, hjeq⟩ := List.mem_map.mp (List.mem_filter.mp hjr).1
    rw [← hjeq]
    show (hwKey (d, some ha, some ht) == ((d.id, d.module, d.day_number, some t) : GKey)) = true
    rw [beq_iff_eq]
    show ((d.id, d.module, d.day_number, ha.title) : GKey) = (d.id, d.module, d.day_number, some t)
    rw [htitle]
  rw [List.filter_eq_self.mpr ?modall]
  case modall =>
    intro jr hjr
    obtain ⟨ht, _, hjeq⟩ := List.mem_map.mp hjr
    rw [← hjeq]
    exact hmod

/-- C5: the tasks of one titled assignment are concatenated with the bar
separator into the single tasks string of its dict entry, and the homework
text joins the day's entries with the semicolon separator, each rendered in
the title-colon-tasks pattern. -/
theorem homework_separators (db : DB) (d : Day) (ha : HomeworkAssignment) (t : String)
    (hd : d ∈ db.days) (hmod : d.module.isSome = true)
    (hha : ha ∈ db.homework_assignments) (hdayid : ha.day_id = some d.id)
    (htitle : ha.title = some t) (htne : ¬t = "")
    (hnodupd : (db.days.map Day.id).Nodup)
    (hnodupa : (db.homework_assignments.map HomeworkAssignment.id).Nodup)
    (huniqt : ∀ ha2 ∈ db.homework_assignments, ha2.day_id = some d.id → ha2.title = some t →
      ha2 = ha)
    (htasks : (assignmentTaskRows db ha).filterMap HomeworkTask.task ≠ []) :
    ∃ items, lookupHw (homework_by_day db) (d.module, some d.day_number) = some items ∧
      (⟨t, String.intercalate " | " ((assignmentTaskRows db ha).filterMap HomeworkTask.task)⟩
        : HwItem) ∈ items ∧
      hwTextOf items
        = String.intercalate "; " (items.map fun hw => hw.title ++ ": " ++ hw.tasks) := by
  have hts_ne : assignmentTaskRows db ha ≠ [] := by
    intro hnil
    rw [hnil] at htasks
    exact htasks rfl
  have han : db.homework_assignments.Nodup := List.Nodup.of_map _ hnodupa
  have hham : ha ∈ dayAssignments db d := List.mem_filter.mpr ⟨hha, by simp [hdayid]⟩
  have hdan : (dayAssignments db d).Nodup := List.Nodup.filter _ han
  have huniqt2 : ∀ ha2 ∈ dayAssignments db d, ha2.title = some t → ha2 = ha := by
    intro ha2 hha2 htit
    exact huniqt ha2 (List.mem_filter.mp hha2).1
      (by simpa using (List.mem_filter.mp hha2).2) htit
  have hgrp : (hwJoinFiltered db).filter
      (fun r => hwKey r == ((d.id, d.module, d.day_number, some t) : GKey)) =
      (assignmentTaskRows db ha).map (fun ht => (d, some ha, some ht)) :=
    (filtered_group_rows db d _ hd hnodupd rfl).trans
      (day_group_rows db d ha t hmod hham hdan htitle huniqt2 hts_ne)
  obtain ⟨hto, hjrmem⟩ := exists_mem_assignmentJoinRows db d ha
  have hjrall : ((d, some ha, hto) : HwJoinRow) ∈ hwJoinRows db := by
    simp only [hwJoinRows]
    exact List.mem_flatMap.mpr ⟨d, hd, mem_dayHwRows_of_assignment hham hjrmem⟩
  have hjrf : ((d, some ha, hto) : HwJoinRow) ∈ hwJoinFiltered db :=
    List.mem_filter.mpr ⟨hjrall, hmod⟩
  have hgk : ((d.id, d.module, d.day_number, some t) : GKey) ∈ groupKeys (hwJoinFiltered db) := by
    refine (mem_groupKeys _ _).mpr ⟨(d, some ha, hto), hjrf, ?_⟩
    show ((d.id, d.module, d.day_number, ha.title) : GKey) = _
    rw [htitle]
  have hrowmem : hwRowOfKey (hwJoinFiltered db) ((d.id, d.module, d.day_number, some t) : GKey)
      ∈ homeworkRows db := by
    simp only [homeworkRows]
    exact List.mem_map.mpr ⟨_, hgk, rfl⟩
  have htval : (hwRowOfKey (hwJoinFiltered db)
      ((d.id, d.module, d.day_number, some t) : GKey)).homework_tasks
      = some (String.intercalate " | " ((assignmentTaskRows db ha).filterMap HomeworkTask.task)) := by
    show groupConcat " | " (((hwJoinFiltered db).filter
        (fun r => hwKey r == ((d.id, d.module, d.day_number, some t) : GKey))).map
        (fun r => r.2.2.bind HomeworkTask.task)) = _
    rw [hgrp, List.map_map]
    show groupConcat " | " ((assignmentTaskRows db ha).map HomeworkTask.task) = _
    unfold groupConcat
    rw [List.filterMap_map]
    show (match (assignmentTaskRows db ha).filterMap HomeworkTask.task with
      | [] => none
      | y :: ys => some (String.intercalate " | " (y :: ys))) = _
    cases hc : (assignmentTaskRows db ha).filterMap HomeworkTask.task with
    | nil => exact absurd hc htasks
    | cons y ys => rfl
  rw [lookupHw_homework_by_day]
  have hany : ((homeworkRows db).any
      fun row => rkeyOf row == (d.module, some d.day_number)) = true := by
    refine List.any_eq_true.mpr ⟨_, hrowmem, ?_⟩
    show (((d.module, some d.day_number) : HwKey) == (d.module, some d.day_number)) = true
    simp
  rw [if_pos hany]
  refine ⟨newItems (homeworkRows db) (d.module, some d.day_number), rfl, ?_, hwTextOf_newItems _ _⟩
  unfold newItems
  refine List.mem_map.mpr ⟨_, List.mem_filter.mpr ⟨hrowmem, ?_⟩, ?_⟩
  · rw [Bool.and_eq_true]
    constructor
    · show (((d.module, some d.day_number) : HwKey) == (d.module, some d.day_number)) = true
      simp
    · show pyTruthy (some t) = true
      simp [pyTruthy, htne]
  · show (⟨(some t).getD "", ((hwRowOfKey (hwJoinFiltered db)
        ((d.id, d.module, d.day_number, some t) : GKey)).homework_tasks).getD ""⟩ : HwItem) = _
    rw [htval]
    rfl

/-- The worked example's source state, used by the separator witness. -/
def c5WitnessDB : DB :=
  { days := [⟨1, some "Solar", 3, some "Photovoltaics"⟩], learning_blocks := [], activities := [], homework_assignments := [⟨7, some 1, some "Reading"⟩], homework_tasks := [⟨some 7, some "Read ch. 4"⟩, ⟨some 7, some "Quiz prep"⟩] }

/-- Witness for C5 at the worked example: the two tasks concatenate with the
bar separator and the single entry renders in the title-colon-tasks pattern. -/
theorem homework_separators_witness :
    ∃ items, lookupHw (homework_by_day c5WitnessDB) (some "Solar", some 3) = some items ∧
      (⟨"Reading", String.intercalate " | "
          ((assignmentTaskRows c5WitnessDB ⟨7, some 1, some "Reading"⟩).filterMap
            HomeworkTask.task)⟩ : HwItem) ∈ items ∧
      hwTextOf items
        = String.intercalate "; " (items.map fun hw => hw.title ++ ": " ++ hw.tasks) :=
  homework_separators c5WitnessDB ⟨1, some "Solar", 3, some "Photovoltaics"⟩
    ⟨7, some 1, some "Reading"⟩ "Reading" (by decide) (by decide) (by decide) (by decide)
    (by decide) (by decide) (by decide) (by decide) (by decide) (by decide)

/-- countP distributes over flatMap as a sum of per-element counts. -/
theorem countP_flatMap {α β : Type} (p : β → Bool) (f : α → List β) (l : List α) :
    List.countP p (l.flatMap f) = (l.map fun x => List.countP p (f x)).sum := by
  induction l with
  | nil => rfl
  | cons x xs ih => rw [List.flatMap_cons, List.countP_append, List.map_cons, List.sum_cons, ih]

/-- The sum of if-counts over a list is the count of the condition. -/
theorem sum_map_ite_eq_countP {α : Type} (q : α → Bool) (l : List α) :
    (l.map fun x => if q x then 1 else 0).sum = List.countP q l := by
  induction l with
  | nil => rfl
  | cons x xs ih =>
      rw [List.map_cons, List.sum_cons, List.countP_cons, ih]
      exact Nat.add_comm _ _

/-- A sum over a duplicate-free list with a single non-zero contribution. -/
theorem sum_map_eq_of_unique {α : Type} (l : List α) (g : α → Nat) (a : α)
    (hmem : a ∈ l) (hnd : l.Nodup) (hz : ∀ b ∈ l, b ≠ a → g b = 0) :
    (l.map g).sum = g a := by
  induction l with
  | nil => cases hmem
  | cons x xs ih =>
      rw [List.map_cons, List.sum_cons]
      rcases List.mem_cons.mp hmem with rfl | hmem2
      · have hz2 : (xs.map g).sum = 0 := by
          apply List.sum_eq_zero
          intro y hy
          obtain ⟨b, hb, hbg⟩ := List.mem_map.mp hy
          rw [← hbg]
          exact hz b (List.mem_cons_of_mem _ hb)
            (fun hba => (List.nodup_cons.mp hnd).1 (hba ▸ hb))
        rw [hz2, Nat.add_zero]
      · rw [hz x (List.mem_cons_self x xs) (fun hxa => (List.nodup_cons.mp hnd).1 (hxa ▸ hmem2)),
          Nat.zero_add]
        exact ih hmem2 (List.nodup_cons.mp hnd).2
          (fun b hb hne => hz b (List.mem_cons_of_mem _ hb) hne)

/-- countP of a constant condition counts the whole list or nothing. -/
theorem countP_const {α : Type} (b : Bool) (l : List α) :
    List.countP (fun _ => b) l = if b then l.length else 0 := by
  induction l with
  | nil => cases b <;> rfl
  | cons x xs ih =>
      rw [List.countP_cons, ih]
      cases b <;> simp

/-- A predicate that pins down a duplicate-free key holds at most once. -/
theorem countP_le_one_of_key {α β : Type} [DecidableEq β] (l : List α) (f : α → β)
    (hnd : (l.map f).Nodup) (p : α → Bool) (c : β) (hp : ∀ x, p x = true → f x = c) :
    List.countP p l ≤ 1 := by
  have h1 : List.countP p l ≤ List.countP (fun x => f x == c) l :=
    List.countP_mono_left (fun x _ hx => by rw [beq_iff_eq]; exact hp x hx)
  have h2 : List.countP (fun x => f x == c) l = List.count c (l.map f) := by
    rw [List.count_eq_countP, List.countP_map]
    rfl
  rw [h2] at h1
  exact h1.trans (List.nodup_iff_count_le_one.mp hnd c)

/-- countP of a key-pinning predicate over a duplicate-free-key list is one
exactly when some element satisfies it. -/
theorem countP_eq_ite_any {α β : Type} [DecidableEq β] (l : List α) (f : α → β)
    (hnd : (l.map f).Nodup) (p : α → Bool) (c : β) (hp : ∀ x, p x = true → f x = c) :
    List.countP p l = if l.any p then 1 else 0 := by
  cases hany : l.any p with
  | false =>
      simp only [Bool.false_eq_true, if_false]
      rw [List.countP_eq_zero]
      intro x hx hpx
      have : l.any p = true := List.any_eq_true.mpr ⟨x, hx, hpx⟩
      rw [hany] at this
      exact Bool.noConfusion this
  | true =>
      have hpos : 0 < List.countP p l := List.countP_pos_iff.mpr (List.any_eq_true.mp hany)
      have hle := countP_le_one_of_key l f hnd p c hp
      have hone : (if (true : Bool) = true then 1 else 0) = 1 := rfl
      rw [hone]
      omega

/-- With duplicate-free learning-block ids, the block LEFT JOIN contributes
exactly one row per activity. -/
theorem length_leftJoinBlock (db : DB) (a : Activity)
    (hb : (db.learning_blocks.map LearningBlock.id).Nodup) :
    (leftJoinBlock db a).length = 1 := by
  unfold leftJoinBlock
  by_cases hemp : (db.learning_blocks.filter fun b => a.block_id == some b.id).isEmpty
  · rw [if_pos hemp]
    rfl
  · rw [if_neg hemp, List.length_map]
    have hle : (db.learning_blocks.filter fun b => a.block_id == some b.id).length ≤ 1 := by
      rw [← List.countP_eq_length_filter]
      cases hbid : a.block_id with
      | none =>
          have hzero : List.countP (fun b => (none : Option Nat) == some b.id)
              db.learning_blocks = 0 :=
            List.countP_eq_zero.mpr (fun b _ => by simp)
          omega
      | some bid =>
          exact countP_le_one_of_key db.learning_blocks LearningBlock.id hb _ bid
            (fun b hpb => (Option.some.inj (beq_iff_eq.mp hpb)).symm)
    have hge : 0 < (db.learning_blocks.filter fun b => a.block_id == some b.id).length :=
      List.length_pos.mpr (List.isEmpty_eq_false.mp (Bool.not_eq_true _ ▸ hemp))
    omega

/-- The rows contributed by one activity that survive a conjunction of a fixed
condition with the module filter number one when the condition holds and the
activity's day join yields a non-NULL module, and zero otherwise. -/
theorem countP_activity_rows (db : DB) (a : Activity) (c : Bool)
    (hd : (db.days.map Day.id).Nodup)
    (hb : (db.learning_blocks.map LearningBlock.id).Nodup) :
    List.countP (fun r => c && r.module.isSome)
      ((leftJoinDay db a).flatMap fun dd => (leftJoinBlock db a).map fun lb => ctxRowOf a dd lb)
      = if c && qualifies db a then 1 else 0 := by
  rw [countP_flatMap]
  have hmapeq : ((leftJoinDay db a).map fun dd =>
      List.countP (fun r => c && r.module.isSome)
        ((leftJoinBlock db a).map fun lb => ctxRowOf a dd lb))
      = (leftJoinDay db a).map fun dd => if c && (dd.bind Day.module).isSome then 1 else 0 := by
    apply List.map_congr_left
    intro dd _
    rw [List.countP_map]
    have hconst : ((fun r => c && r.module.isSome) ∘ fun lb => ctxRowOf a dd lb)
        = fun _ => c && (dd.bind Day.module).isSome := rfl
    rw [hconst, countP_const, length_leftJoinBlock db a hb]
  rw [hmapeq, sum_map_ite_eq_countP]
  unfold leftJoinDay
  by_cases hemp : (db.days.filter fun d => a.day_id == some d.id).isEmpty
  · rw [if_pos hemp]
    have hq : qualifies db a = false := by
      cases hqq : qualifies db a with
      | false => rfl
      | true =>
          exfalso
          obtain ⟨d, hdm, hp⟩ := List.any_eq_true.mp hqq
          rw [Bool.and_eq_true] at hp
          have : d ∈ db.days.filter fun d2 => a.day_id == some d2.id :=
            List.mem_filter.mpr ⟨hdm, hp.1⟩
          rw [List.isEmpty_iff.mp hemp] at this
          exact absurd this (List.not_mem_nil d)
    rw [hq, Bool.and_false]
    simp [List.countP_cons]
  · rw [if_neg hemp, List.countP_map]
    cases c with
    | false => simp
    | true =>
        simp only [Bool.true_and]
        have hcf : List.countP ((fun dd => (dd.bind Day.module).isSome) ∘ some)
            (db.days.filter fun d => a.day_id == some d.id)
            = List.countP (fun d => (a.day_id == some d.id) && d.module.isSome) db.days := by
          rw [List.countP_filter]
          apply List.countP_congr
          intro x _
          show (((some x).bind Day.module).isSome && (a.day_id == some x.id)) = true ↔ _
          rw [Bool.and_comm]
          exact Iff.rfl
        rw [hcf]
        unfold qualifies
        cases hbid : a.day_id with
        | none =>
            have hz : List.countP (fun d => ((none : Option Nat) == some d.id) && d.module.isSome)
                db.days = 0 :=
              List.countP_eq_zero.mpr (fun d _ => by simp)
            have ha2 : (db.days.any fun d => ((none : Option Nat) == some d.id) && d.module.isSome)
                = false := by
              cases haq : (db.days.any fun d =>
                  ((none : Option Nat) == some d.id) && d.module.isSome) with
              | false => rfl
              | true =>
                  obtain ⟨d, _, hp⟩ := List.any_eq_true.mp haq
                  simp at hp
            rw [hz, ha2]
            rfl
        | some did =>
            apply countP_eq_ite_any db.days Day.id hd _ did
            intro d hp
            rw [Bool.and_eq_true] at hp
            exact (Option.some.inj (beq_iff_eq.mp hp.1)).symm

/-- String concatenation with a fixed left part is injective. -/
theorem string_append_cancel_left {s a b : String} (h : s ++ a = s ++ b) : a = b := by
  apply String.ext
  have h2 := congrArg String.data h
  rw [String.data_append, String.data_append] at h2
  exact List.append_cancel_left h2

/-- C3: with duplicate-free day, learning-block and activity identifiers, the
chunk count equals the count of qualifying activities (those whose day join
yields a non-NULL module), and each activity yields exactly one chunk with its
derived identifier when it qualifies and zero chunks otherwise. -/
theorem chunk_count_invariant (db : DB)
    (hd : (db.days.map Day.id).Nodup)
    (hb : (db.learning_blocks.map LearningBlock.id).Nodup)
    (hid : (db.activities.map fun a => toString a.id).Nodup) :
    (chunks db).length = (db.activities.filter (qualifies db)).length ∧
    ∀ a ∈ db.activities,
      ((chunks db).filter fun c => c.id == "curr-" ++ toString a.id).length
        = if qualifies db a then 1 else 0 := by
  have hperm := List.perm_insertionSort rowOrd (contextRows db)
  constructor
  · have h1 : (chunks db).length = (contextRows db).length := by
      unfold chunks activitiesQuery
      rw [List.length_map]
      exact hperm.length_eq
    rw [h1]
    unfold contextRows contextRowsAll
    rw [← List.countP_eq_length_filter, ← List.countP_eq_length_filter, countP_flatMap]
    have h2 : (db.activities.map fun a => List.countP (fun r => r.module.isSome)
        ((leftJoinDay db a).flatMap fun d => (leftJoinBlock db a).map fun lb => ctxRowOf a d lb))
        = db.activities.map fun a => if qualifies db a then 1 else 0 := by
      apply List.map_congr_left
      intro a _
      have hcongr : List.countP (fun r => r.module.isSome)
          ((leftJoinDay db a).flatMap fun d => (leftJoinBlock db a).map fun lb => ctxRowOf a d lb)
          = List.countP (fun r => true && r.module.isSome)
          ((leftJoinDay db a).flatMap fun d => (leftJoinBlock db a).map fun lb => ctxRowOf a d lb) :=
        List.countP_congr (fun x _ => by rw [Bool.true_and])
      rw [hcongr, countP_activity_rows db a true hd hb, Bool.true_and]
    rw [h2, sum_map_ite_eq_countP]
  · intro a hmem
    have hact_nodup : db.activities.Nodup := List.Nodup.of_map _ hid
    have h1 : ((chunks db).filter fun c => c.id == "curr-" ++ toString a.id).length
        = List.countP (fun r => ("curr-" ++ toString r.activity_id) == ("curr-" ++ toString a.id))
            (contextRows db) := by
      rw [← List.countP_eq_length_filter]
      unfold chunks activitiesQuery
      rw [List.countP_map]
      have hfun : ((fun c => c.id == "curr-" ++ toString a.id) ∘ chunkOf (homework_by_day db))
          = fun r => ("curr-" ++ toString r.activity_id) == ("curr-" ++ toString a.id) := rfl
      rw [hfun]
      exact (List.perm_insertionSort rowOrd (contextRows db)).countP_eq _
    rw [h1]
    unfold contextRows contextRowsAll
    rw [List.countP_filter, countP_flatMap]
    have hz : ∀ a2 ∈ db.activities, a2 ≠ a →
        List.countP (fun r =>
            (("curr-" ++ toString r.activity_id) == ("curr-" ++ toString a.id)) && r.module.isSome)
          ((leftJoinDay db a2).flatMap fun d => (leftJoinBlock db a2).map fun lb => ctxRowOf a2 d lb)
          = 0 := by
      intro a2 ha2 hne
      have hc : (("curr-" ++ toString a2.id) == ("curr-" ++ toString a.id)) = false := by
        rw [beq_eq_false_iff_ne]
        intro hceq
        apply hne
        apply List.inj_on_of_nodup_map hid ha2 hmem
        exact string_append_cancel_left hceq
      have hcongr : List.countP (fun r =>
            (("curr-" ++ toString r.activity_id) == ("curr-" ++ toString a.id)) && r.module.isSome)
          ((leftJoinDay db a2).flatMap fun d => (leftJoinBlock db a2).map fun lb => ctxRowOf a2 d lb)
          = List.countP (fun r =>
            (("curr-" ++ toString a2.id) == ("curr-" ++ toString a.id)) && r.module.isSome)
          ((leftJoinDay db a2).flatMap fun d => (leftJoinBlock db a2).map fun lb => ctxRowOf a2 d lb) := by
        apply List.countP_congr
        intro r hr
        obtain ⟨dd, _, hrm⟩ := List.mem_flatMap.mp hr
        obtain ⟨lb, _, hreq⟩ := List.mem_map.mp hrm
        rw [← hreq]
        exact Iff.rfl
      rw [hcongr, countP_activity_rows db a2 _ hd hb, hc, Bool.false_and]
      rfl
    rw [sum_map_eq_of_unique db.activities _ a hmem hact_nodup hz]
    have hcongr2 : List.countP (fun r =>
          (("curr-" ++ toString r.activity_id) == ("curr-" ++ toString a.id)) && r.module.isSome)
        ((leftJoinDay db a).flatMap fun d => (leftJoinBlock db a).map fun lb => ctxRowOf a d lb)
        = List.countP (fun r => true && r.module.isSome)
        ((leftJoinDay db a).flatMap fun d => (leftJoinBlock db a).map fun lb => ctxRowOf a d lb) := by
      apply List.countP_congr
      intro r hr
      obtain ⟨dd, _, hrm⟩ := List.mem_flatMap.mp hr
      obtain ⟨lb, _, hreq⟩ := List.mem_map.mp hrm
      rw [← hreq]
      have hself : (("curr-" ++ toString a.id) == ("curr-" ++ toString a.id)) = true := by simp
      show ((("curr-" ++ toString a.id) == ("curr-" ++ toString a.id)) && _) = true ↔ _
      rw [hself]
    rw [hcongr2, countP_activity_rows db a true hd hb, Bool.true_and]

/-- A concrete source with one qualifying activity, one whose day has a NULL
module, and one with no day at all. -/
def c3WitnessDB : DB :=
  { days := [⟨1, some "Solar", 3, none⟩, ⟨2, none, 1, none⟩], learning_blocks := [⟨4, some "Basics"⟩], activities := [⟨10, some 1, some 4, some "Lab", 2, none, none, none, none⟩, ⟨11, some 2, none, some "Hidden", 1, none, none, none, none⟩, ⟨12, none, none, some "Orphan", 1, none, none, none, none⟩], homework_assignments := [], homework_tasks := [] }

/-- Witness for C3 at the concrete three-activity source. -/
theorem chunk_count_invariant_witness :
    (chunks c3WitnessDB).length
        = (c3WitnessDB.activities.filter (qualifies c3WitnessDB)).length ∧
    ∀ a ∈ c3WitnessDB.activities,
      ((chunks c3WitnessDB).filter fun c => c.id == "curr-" ++ toString a.id).length
        = if qualifies c3WitnessDB a then 1 else 0 :=
  chunk_count_invariant c3WitnessDB (by decide) (by decide) (by decide)
